import Mathlib

/-!
Formal model of the conference badge generator (`src/namer.py`).

Python strings are modelled as lists of characters (`Str`).  File system
access, logging and the external PDF conversion step are outside the model:
`readTemplate` takes the template file's text, `readAttendees` takes the rows
produced by the tab-separated reader, and `generateBadges` returns the list
of page texts it would write, in page order.  Fallible functions return
`Except PyError`, mirroring the exceptions raised by the script.  The XML
well-formedness check performed by `xml.etree.ElementTree.fromstring` is a
call into the Python standard library and is abstracted as a boolean
parameter `xmlOk`.
-/

/-- Python strings as lists of characters. -/
abbrev Str := List Char

/-- Characters of a Lean string literal, used to write concrete inputs. -/
def strOf (s : String) : Str := s.data

/-- Character class `[A-Z]` of the tag pattern. -/
def isUpperAZ (c : Char) : Bool := decide ('A' ≤ c) && decide (c ≤ 'Z')

/-- Character class `\d` (ASCII digits, which is all the tag pattern can
capture on ASCII templates) of the tag pattern. -/
def isDigit09 (c : Char) : Bool := decide ('0' ≤ c) && decide (c ≤ '9')

/-- Fuel-indexed scanner for `re.sub` with a literal (escaped) pattern: every
non-overlapping occurrence of `pat`, found left to right, is replaced by
`rep`; the replacement text is not rescanned.  The fuel only serves to make
the recursion structural; `replaceAll` supplies enough fuel for a full scan
(each step consumes at least one character when `pat` is nonempty). -/
def replaceAllFuel : Nat → Str → Str → Str → Str
  | 0, _, _, s => s
  | fuel + 1, pat, rep, s =>
    match s with
    | [] => []
    | c :: rest =>
      if pat.isPrefixOf (c :: rest) then
        rep ++ replaceAllFuel fuel pat rep ((c :: rest).drop pat.length)
      else c :: replaceAllFuel fuel pat rep rest

/-- The call `re.sub(re.escape(tag), value, text)` of `generate_badges`
(namer.py line 189): replace every occurrence of the literal token `pat`.
Tags are never empty (they end in a digit), so the empty-pattern guard is
inert; the backslash processing Python applies to the replacement argument
of `re.sub` is not modelled (no replacement value considered below contains
a backslash). -/
def replaceAll (pat rep s : Str) : Str :=
  if pat = [] then s else replaceAllFuel s.length pat rep s

/-- Substring occurrence test, used in statements about leftover tokens. -/
def occursIn (pat : Str) : Str → Bool
  | [] => pat.isPrefixOf []
  | c :: rest => pat.isPrefixOf (c :: rest) || occursIn pat rest

/-- One attempted match of the regular expression `PREFIX([A-Z]+)(\d+)` at
the head of `s` (namer.py line 81; the prefix is interpolated literally and
the default `PXTAG_` contains no character that is special in a pattern).
The two character classes are disjoint, so the greedy `takeWhile` runs
coincide with the backtracking behaviour of the Python engine.  Returns the
two capture groups and the rest of the input. -/
def matchTagAt (pre s : Str) : Option (Str × Str × Str) :=
  if pre.isPrefixOf s then
    let s1 := s.drop pre.length
    let name := s1.takeWhile isUpperAZ
    let s2 := s1.drop name.length
    let digits := s2.takeWhile isDigit09
    if name = [] then none
    else if digits = [] then none
    else some (name, digits, s2.drop digits.length)
  else none

/-- Fuel-indexed scan of `re.findall`: try a match at every position, left to
right; after a match, scanning resumes past the matched text
(non-overlapping matches).  Each step consumes at least one character, so
fuel `s.length` (supplied by `findTags`) never runs out early. -/
def tagScanFuel (pre : Str) : Nat → Str → List (Str × Str)
  | 0, _ => []
  | fuel + 1, s =>
    match matchTagAt pre s with
    | some (n, d, rest) => (n, d) :: tagScanFuel pre fuel rest
    | none =>
      match s with
      | [] => []
      | _ :: t => tagScanFuel pre fuel t

/-- All `(field, digits)` capture pairs of `re.findall(tag_pattern, content)`
(namer.py line 82). -/
def findTags (pre s : Str) : List (Str × Str) := tagScanFuel pre s.length s

/-- Maximum of a list of naturals, `0` on the empty list; `read_template`
only applies it to a nonempty list (namer.py line 91). -/
def listMax (l : List Nat) : Nat := l.foldr max 0

/-- Decimal value of a digit string, Python `int` on a digit capture. -/
def digitsToNat (ds : Str) : Nat := ds.foldl (fun a c => 10 * a + (c.toNat - 48)) 0

/-- Numbers used by one field,
`{int(num) for tag, num in matches if tag == t}` (namer.py line 95),
as a list of values (only membership in it is ever used). -/
def tagNumbers (ms : List (Str × Str)) (t : Str) : List Nat :=
  (ms.filter (fun m => decide (m.1 = t))).map (fun m => digitsToNat m.2)

/-- The `Template` dataclass (namer.py lines 31-36): raw text, set of field
names (a duplicate-free list standing for the Python set) and the per-page
capacity `records_per_page`. -/
structure Template where
  content : Str
  tags : List Str
  records_per_page : Nat
  deriving DecidableEq

/-- Exceptions raised by the script, one constructor per raise site. -/
inductive PyError where
  /-- Invalid SVG template (namer.py line 78). -/
  | invalidSVG : PyError
  /-- No tags found with the given prefix (namer.py line 85). -/
  | noTagsFound : Str → PyError
  /-- A tag is missing some numbers in sequence 1 to max (namer.py line 98),
  carrying the offending field and the template maximum. -/
  | tagMissingNumbers : Str → Nat → PyError
  /-- The `StopIteration` escaping from `next(reader)` on an empty data file
  (namer.py line 121). -/
  | emptyDataFile : PyError
  /-- Empty header row in data file (namer.py line 124). -/
  | emptyHeaderRow : PyError
  /-- Required template tags missing from data (namer.py line 165), carrying
  the missing uppercased tag names. -/
  | missingRequired : List Str → PyError
  deriving DecidableEq

/-- The method `read_template` (namer.py lines 60-104) applied to the
template file's text.  `xmlOk` stands for the success of the
`xml.etree.ElementTree.fromstring` well-formedness check.  Python iterates
the tag set in an unspecified order when looking for a field whose numbers
violate the range check; `find?` over the first-occurrence order models one
such order (which violating field is named does not matter to any claim). -/
def readTemplate (xmlOk : Str → Bool) (pre content : Str) : Except PyError Template :=
  if xmlOk content then
    let ms := findTags pre content
    if ms = [] then .error (.noTagsFound pre)
    else
      let tags := (ms.map Prod.fst).dedup
      let maxNumber := listMax (ms.map (fun m => digitsToNat m.2))
      match tags.find? (fun t =>
          (tagNumbers ms t).any (fun n => !decide (1 ≤ n ∧ n ≤ maxNumber))) with
      | some t => .error (.tagMissingNumbers t maxNumber)
      | none => .ok ⟨content, tags, maxNumber⟩
  else .error .invalidSVG

/-- The `AttendeeData` dataclass (namer.py lines 38-42).  A record is a
Python dict kept as its insertion-ordered key/value pairs; lookups go
through `dictGet`. -/
structure AttendeeData where
  headers : List Str
  records : List (List (Str × Str))
  deriving DecidableEq

/-- Python `str.strip` (restricted to ASCII whitespace). -/
def pyStrip (s : Str) : Str :=
  ((s.dropWhile Char.isWhitespace).reverse.dropWhile Char.isWhitespace).reverse

/-- Row-skipping test `not any(cell.strip() for cell in row)`
(namer.py line 132). -/
def isBlankRow (row : List Str) : Bool :=
  !(row.any (fun c => decide (pyStrip c ≠ [])))

/-- Per-row cleaning (namer.py lines 136-142): keep the first
`headers.length` cells, strip each, and pad with empty strings up to the
header length. -/
def cleanRow (headers : List Str) (row : List Str) : List Str :=
  let r := (row.take headers.length).map pyStrip
  r ++ List.replicate (headers.length - r.length) []

/-- The method `read_attendees` (namer.py lines 108-149) applied to the list
of rows produced by the tab-separated reader (the `csv` lexer itself is a
standard-library call and is not modelled). -/
def readAttendees (rows : List (List Str)) : Except PyError AttendeeData :=
  match rows with
  | [] => .error .emptyDataFile
  | headerRow :: dataRows =>
    if headerRow = [] then .error .emptyHeaderRow
    else
      let headers := (headerRow.map pyStrip).filter (fun h => !decide (h = []))
      let records := (dataRows.filter (fun r => !isBlankRow r)).map
        (fun r => headers.zip (cleanRow headers r))
      .ok ⟨headers, records⟩

/-- Python `record.get(key, '')` on a dict built by `dict(zip(headers, row))`
or a dict comprehension: with duplicate keys the last binding wins, hence
the `getLast?`. -/
def dictGet (d : List (Str × Str)) (k : Str) : Str :=
  match (d.filter (fun p => decide (p.1 = k))).getLast? with
  | some p => p.2
  | none => []

/-- The padding record `{key: '' for key in data.headers}`
(namer.py line 181). -/
def emptyRecord (headers : List Str) : List (Str × Str) :=
  headers.map (fun k => (k, ([] : Str)))

/-- Python `str.upper`, restricted to ASCII (template tags are `[A-Z]+` by
construction and every header considered below is ASCII). -/
def strUpper (s : Str) : Str := s.map Char.toUpper

/-- The set difference `template_tags - data_headers` of uppercased names
(namer.py lines 156-163), as a duplicate-free list. -/
def missingList (t : Template) (d : AttendeeData) : List Str :=
  (t.tags.map strUpper).dedup.filter
    (fun g => !decide (g ∈ (d.headers.map strUpper).dedup))

/-- The record batch of one page: the slice
`data.records[page * N : page * N + N]` padded at the end with empty records
up to length `N` (namer.py lines 176-181). -/
def pageRecords (d : AttendeeData) (N page : Nat) : List (List (Str × Str)) :=
  let slice := (d.records.drop (page * N)).take N
  slice ++ List.replicate (N - slice.length) (emptyRecord d.headers)

/-- Substitutions of one position (namer.py lines 186-189): for each header
`key`, in order, replace every occurrence of the literal token
`pre ++ key ++ pos` by the record's value at `key`. -/
def substPos (pre : Str) (record : List (Str × Str)) (pos : Nat)
    (headers : List Str) (content : Str) : Str :=
  headers.foldl
    (fun acc key =>
      replaceAll (pre ++ key ++ Nat.toDigits 10 pos) (dictGet record key) acc)
    content

/-- Text of page `page` (0-based): the positional substitutions applied to
the template content for positions `1..N` (namer.py lines 173-189).  The
`getD` default is never reached since the batch has length `N`. -/
def composePage (pre : Str) (t : Template) (d : AttendeeData) (page : Nat) : Str :=
  let recs := pageRecords d t.records_per_page page
  (List.range t.records_per_page).foldl
    (fun acc i => substPos pre (recs.getD i (emptyRecord d.headers)) (i + 1) d.headers acc)
    t.content

/-- The method `generate_badges` (namer.py lines 151-207), returning the page
texts it writes, in page order.  The warning about data columns unused by
the template (line 161) is log-only and not modelled; the PDF conversion
step is outside the model.  For `records_per_page = 0` Python would raise
`ZeroDivisionError` at line 170 where the model's total division yields `0`
pages; `read_template` never produces such a template and every claim below
assumes a positive capacity. -/
def generateBadges (pre : Str) (t : Template) (d : AttendeeData) :
    Except PyError (List Str) :=
  if missingList t d = [] then
    let totalPages := (d.records.length + t.records_per_page - 1) / t.records_per_page
    .ok ((List.range totalPages).map (composePage pre t d))
  else .error (.missingRequired (missingList t d))

/-- The pipeline of `main` (namer.py lines 231-247) on the template text and
the data rows: read the template, read the attendees, generate the pages. -/
def runGeneration (xmlOk : Str → Bool) (pre : Str) (templateText : Str)
    (rows : List (List Str)) : Except PyError (List Str) := do
  let t ← readTemplate xmlOk pre templateText
  let d ← readAttendees rows
  generateBadges pre t d

/-- The default tag prefix `PXTAG_` (namer.py line 45). -/
def pxtag : Str := strOf "PXTAG_"

/-! ### Helper lemmas about the model's building blocks -/

/-- A successful tag match consumes at least one character, hence the scan
fuel `s.length` supplied by `findTags` never runs out before the end of the
input. -/
theorem matchTagAt_rest_length {pre s n d rest : Str}
    (h : matchTagAt pre s = some (n, d, rest)) : rest.length < s.length := by
  simp only [matchTagAt] at h
  split at h
  case isFalse => exact absurd h (by simp)
  case isTrue hpre =>
    split at h
    case isTrue => exact absurd h (by simp)
    case isFalse hname =>
      split at h
      case isTrue => exact absurd h (by simp)
      case isFalse hdig =>
        rw [Option.some.injEq, Prod.mk.injEq, Prod.mk.injEq] at h
        obtain ⟨-, -, h3⟩ := h
        subst h3
        have h1 : 0 < (((s.drop pre.length).drop
            ((s.drop pre.length).takeWhile isUpperAZ).length).takeWhile isDigit09).length :=
          List.length_pos.mpr hdig
        have h2 : (((s.drop pre.length).drop
            ((s.drop pre.length).takeWhile isUpperAZ).length).takeWhile isDigit09).length ≤
            ((s.drop pre.length).drop
              ((s.drop pre.length).takeWhile isUpperAZ).length).length :=
          (List.takeWhile_sublist _).length_le
        simp only [List.length_drop] at *
        omega

/-- When the pattern does not occur in the input, the fuel-indexed literal
substitution leaves the input unchanged. -/
theorem replaceAllFuel_of_not_occurs (fuel : Nat) (pat rep : Str) :
    ∀ s : Str, occursIn pat s = false → replaceAllFuel fuel pat rep s = s := by
  induction fuel with
  | zero => intro s _; rfl
  | succ fuel ih =>
    intro s h
    cases s with
    | nil => rfl
    | cons c rest =>
      simp only [occursIn, Bool.or_eq_false_iff] at h
      simp only [replaceAllFuel]
      rw [if_neg (by simp [h.1]), ih rest h.2]

/-- Substitution of a token that does not occur in the text is the identity. -/
theorem replaceAll_of_not_occurs {pat rep s : Str} (h : occursIn pat s = false) :
    replaceAll pat rep s = s := by
  by_cases hp : pat = []
  · simp [replaceAll, hp]
  · simp only [replaceAll, if_neg hp]
    exact replaceAllFuel_of_not_occurs _ _ _ _ h

theorem listMax_cons (a : Nat) (l : List Nat) : listMax (a :: l) = max a (listMax l) := rfl

/-- Every element of a list is bounded by `listMax`. -/
theorem le_listMax {l : List Nat} {x : Nat} (hx : x ∈ l) : x ≤ listMax l := by
  induction l with
  | nil => cases hx
  | cons a l ih =>
    rw [listMax_cons]
    rcases List.mem_cons.mp hx with rfl | hx
    · exact le_max_left _ _
    · exact le_trans (ih hx) (le_max_right _ _)

/-- On a nonempty list, `listMax` is attained. -/
theorem listMax_mem : ∀ {l : List Nat}, l ≠ [] → listMax l ∈ l
  | [], h => absurd rfl h
  | [a], _ => by simp [listMax]
  | a :: b :: m, _ => by
    have ih := listMax_mem (l := b :: m) (by simp)
    rw [listMax_cons]
    rcases max_choice a (listMax (b :: m)) with h1 | h1 <;> rw [h1]
    · exact List.mem_cons_self _ _
    · exact List.mem_cons_of_mem _ ih

/-- Dict lookup skips a binding with a different key. -/
theorem dictGet_cons_ne {k key v : Str} {d : List (Str × Str)} (h : k ≠ key) :
    dictGet ((k, v) :: d) key = dictGet d key := by
  simp only [dictGet, List.filter_cons]
  rw [if_neg (by simp [h])]

/-- Dict lookup finds a front binding whose key appears nowhere later. -/
theorem dictGet_cons_of_not_mem {k v : Str} {d : List (Str × Str)}
    (h : ∀ p ∈ d, p.1 ≠ k) : dictGet ((k, v) :: d) k = v := by
  have hf : d.filter (fun p => decide (p.1 = k)) = [] := by
    rw [List.filter_eq_nil_iff]
    intro p hp
    simp [h p hp]
  simp [dictGet, List.filter_cons, hf]

/-- Lookup in a dict built by `dict(zip(headers, row))`: with duplicate-free
headers, the value of the `i`-th header is the `i`-th row cell. -/
theorem dictGet_zip {H : List Str} (hnd : H.Nodup) :
    ∀ {R : List Str} (i : Nat), i < H.length → i < R.length →
      dictGet (H.zip R) (H.getD i []) = R.getD i [] := by
  induction H with
  | nil => intro R i hi _; simp at hi
  | cons h H ih =>
    intro R i hiH hiR
    cases R with
    | nil => simp at hiR
    | cons r R =>
      cases i with
      | zero =>
        simp only [List.getD_cons_zero, List.zip_cons_cons]
        apply dictGet_cons_of_not_mem
        intro p hp heq
        have h1 : p.1 ∈ H := (List.of_mem_zip hp).1
        rw [heq] at h1
        exact (List.nodup_cons.mp hnd).1 h1
      | succ i =>
        have hiH2 : i < H.length := by
          simp only [List.length_cons] at hiH
          omega
        have hiR2 : i < R.length := by
          simp only [List.length_cons] at hiR
          omega
        have hmem : H.getD i [] ∈ H := by
          rw [List.getD_eq_getElem?_getD, List.getElem?_eq_getElem hiH2]
          exact List.getElem_mem _
        simp only [List.getD_cons_succ, List.zip_cons_cons]
        have hne : h ≠ H.getD i [] := by
          intro heq
          rw [heq] at hnd
          exact (List.nodup_cons.mp hnd).1 hmem
        rw [dictGet_cons_ne hne]
        exact ih (List.nodup_cons.mp hnd).2 i hiH2 hiR2

/-- Indexing a mapped list inside its range. -/
theorem getD_map_lt {α β : Type} (f : α → β) (l : List α) (j : Nat)
    (hj : j < l.length) (d0 : β) (d1 : α) :
    (l.map f).getD j d0 = f (l.getD j d1) := by
  rw [List.getD_eq_getElem?_getD, List.getD_eq_getElem?_getD, List.getElem?_map,
    List.getElem?_eq_getElem hj]
  rfl

/-- A cleaned row always has exactly one cell per retained header. -/
theorem cleanRow_length (headers r : List Str) :
    (cleanRow headers r).length = headers.length := by
  simp only [cleanRow, List.length_append, List.length_map, List.length_take,
    List.length_replicate]
  omega

/-- The `i`-th cell of a cleaned row is the stripped `i`-th cell of the raw
row (empty when the raw row is too short): rows are aligned from their left
edge, not by original column position. -/
theorem cleanRow_getD (headers r : List Str) (i : Nat) (hi : i < headers.length) :
    (cleanRow headers r).getD i [] = pyStrip (r.getD i []) := by
  simp only [cleanRow]
  by_cases hir : i < r.length
  · have h1 : i < ((r.take headers.length).map pyStrip).length := by
      simp only [List.length_map, List.length_take]
      omega
    rw [List.getD_eq_getElem?_getD, List.getElem?_append_left h1,
      List.getElem?_map, List.getElem?_take_of_lt hi, List.getD_eq_getElem?_getD,
      List.getElem?_eq_getElem hir]
    rfl
  · have hlen1 : ((r.take headers.length).map pyStrip).length = r.length := by
      simp only [List.length_map, List.length_take]
      omega
    rw [List.getD_eq_getElem?_getD, List.getElem?_append_right (by omega), hlen1,
      List.getElem?_replicate, if_pos (by omega), List.getD_eq_getElem?_getD,
      List.getElem?_eq_none (by omega)]
    rfl

/-! ### Claim theorems -/

/-- C1, counterexample.  The claim asserts that a cleanup pass removes every
leftover token matching the placeholder pattern, so that no emitted page
contains one.  On the concrete run below (template `PXTAG_NAME1`, table
column `name`, record value `Alice`) the run succeeds and the emitted page
still contains the token `PXTAG_NAME1`, which the placeholder scanner itself
recognises: no cleanup pass exists in `generate_badges`. -/
theorem c1_leftover_token_counterexample :
    runGeneration (fun _ => true) pxtag (strOf "PXTAG_NAME1")
      [[strOf "name"], [strOf "Alice"]] = .ok [strOf "PXTAG_NAME1"] ∧
    findTags pxtag (strOf "PXTAG_NAME1") = [(strOf "NAME", strOf "1")] := by
  exact ⟨rfl, rfl⟩

/-- C1, amended.  `generate_badges` performs no cleanup pass: every emitted
page is exactly the result of the positional substitutions applied to the
template content, and a token matched by no substitution remains in the
output.  In the round-trip configuration of the claim (template
`PXTAG_NAME1`, column `NAME`, single record `Alice`, capacity 1) the emitted
page is `Alice` and contains no remaining placeholder token. -/
theorem c1_no_cleanup_amended :
    (∀ (pre : Str) (t : Template) (d : AttendeeData) (ps : List Str),
        generateBadges pre t d = .ok ps →
        ps = (List.range
            ((d.records.length + t.records_per_page - 1) / t.records_per_page)).map
          (composePage pre t d)) ∧
    (runGeneration (fun _ => true) pxtag (strOf "PXTAG_NAME1")
        [[strOf "NAME"], [strOf "Alice"]] = .ok [strOf "Alice"] ∧
      findTags pxtag (strOf "Alice") = []) := by
  constructor
  · intro pre t d ps h
    simp only [generateBadges] at h
    split at h
    · exact (Except.ok.inj h).symm
    · exact Except.noConfusion h
  · exact ⟨rfl, rfl⟩

/-- C1, witness for the amended theorem at a concrete successful run. -/
theorem c1_no_cleanup_amended_witness :
    [strOf "Alice"] = (List.range (((1 : Nat) + 1 - 1) / 1)).map
      (composePage pxtag ⟨strOf "PXTAG_NAME1", [strOf "NAME"], 1⟩
        ⟨[strOf "NAME"], [[(strOf "NAME", strOf "Alice")]]⟩) :=
  c1_no_cleanup_amended.1 pxtag ⟨strOf "PXTAG_NAME1", [strOf "NAME"], 1⟩
    ⟨[strOf "NAME"], [[(strOf "NAME", strOf "Alice")]]⟩ [strOf "Alice"] (by rfl)

/-- C2, evaluation at the failing input.  The template
`PXTAG_NAME1 PXTAG_NAME10` is accepted with capacity 10, and on a table with
column `NAME` and the single record `Alice` the emitted page is
`Alice Alice0`: the substitution loop for position 1 consumed the text of the
position-10 token `PXTAG_NAME10` (of which `PXTAG_NAME1` is a string
prefix), so the occurrence of `PXTAG_NAME10` was not replaced by the value
of position 10's (empty) record — the claim would require the page
`Alice `. -/
theorem c2_position_prefix_clobber_eval :
    readTemplate (fun _ => true) pxtag (strOf "PXTAG_NAME1 PXTAG_NAME10")
      = .ok ⟨strOf "PXTAG_NAME1 PXTAG_NAME10", [strOf "NAME"], 10⟩ ∧
    runGeneration (fun _ => true) pxtag (strOf "PXTAG_NAME1 PXTAG_NAME10")
      [[strOf "NAME"], [strOf "Alice"]] = .ok [strOf "Alice Alice0"] ∧
    strOf "Alice Alice0" ≠ strOf "Alice " := by
  refine ⟨rfl, rfl, by decide⟩

/-- C7, counterexample.  The claim asserts that the column position of a
blank header cell is dropped from every data row.  With header row
`NAME, <blank>, ROLE` and data row `Alice, x, Speaker` the code instead
keeps the first two cells of the row, so the record maps `ROLE` to `x`
(the cell under the blank header) and not to `Speaker` as the claim
requires. -/
theorem c7_positional_drop_counterexample :
    readAttendees [[strOf "NAME", strOf "", strOf "ROLE"],
        [strOf "Alice", strOf "x", strOf "Speaker"]]
      = .ok ⟨[strOf "NAME", strOf "ROLE"],
          [[(strOf "NAME", strOf "Alice"), (strOf "ROLE", strOf "x")]]⟩ ∧
    dictGet [(strOf "NAME", strOf "Alice"), (strOf "ROLE", strOf "x")] (strOf "ROLE")
      ≠ strOf "Speaker" := by
  exact ⟨rfl, by decide⟩

/-- C10.  A table whose only column is `name` (differing from the template
field `NAME` only in case) is accepted by the required-field check, which
uppercases both sides; but substitution tokens are built from the
original-case column name (`PXTAG_name1`), which never occurs in the
template, so the emitted page is the template text unchanged and still
contains the placeholder token `PXTAG_NAME1` — for any record value `v`. -/
theorem c10_case_mismatch_leftover (v : Str) :
    readTemplate (fun _ => true) pxtag (strOf "PXTAG_NAME1")
      = .ok ⟨strOf "PXTAG_NAME1", [strOf "NAME"], 1⟩ ∧
    generateBadges pxtag ⟨strOf "PXTAG_NAME1", [strOf "NAME"], 1⟩
      ⟨[strOf "name"], [[(strOf "name", v)]]⟩ = .ok [strOf "PXTAG_NAME1"] ∧
    occursIn (pxtag ++ strOf "NAME" ++ strOf "1") (strOf "PXTAG_NAME1") = true := by
  refine ⟨rfl, ?_, rfl⟩
  have hcomp : composePage pxtag ⟨strOf "PXTAG_NAME1", [strOf "NAME"], 1⟩
      ⟨[strOf "name"], [[(strOf "name", v)]]⟩ 0
      = replaceAll (strOf "PXTAG_name1") v (strOf "PXTAG_NAME1") := rfl
  rw [replaceAll_of_not_occurs
    (by rfl : occursIn (strOf "PXTAG_name1") (strOf "PXTAG_NAME1") = false)] at hcomp
  simp only [generateBadges]
  rw [if_pos (show missingList ⟨strOf "PXTAG_NAME1", [strOf "NAME"], 1⟩
      ⟨[strOf "name"], [[(strOf "name", v)]]⟩ = [] from rfl)]
  norm_num
  rw [show List.range 1 = [0] from rfl]
  simp [hcomp]

/-- C10, witness at the record value `Alice`. -/
theorem c10_case_mismatch_leftover_witness :
    generateBadges pxtag ⟨strOf "PXTAG_NAME1", [strOf "NAME"], 1⟩
      ⟨[strOf "name"], [[(strOf "name", strOf "Alice")]]⟩ = .ok [strOf "PXTAG_NAME1"] :=
  (c10_case_mismatch_leftover (strOf "Alice")).2.1

/-- C3.  When some template field name has no matching table column (names
compared after uppercasing both sides, as the code does), `generate_badges`
raises before entering the page loop: in the model it returns the
`missingRequired` error and produces no page content at all. -/
theorem generateBadges_missing_required_error (pre : Str) (t : Template)
    (d : AttendeeData) (h : ∃ f ∈ t.tags, strUpper f ∉ d.headers.map strUpper) :
    generateBadges pre t d = .error (.missingRequired (missingList t d)) := by
  obtain ⟨f, hf, hnf⟩ := h
  have hmem : strUpper f ∈ missingList t d := by
    simp only [List.mem_map] at hnf
    simp only [missingList, List.mem_filter, List.mem_dedup, List.mem_map,
      Bool.not_eq_true', decide_eq_false_iff_not]
    exact ⟨⟨f, hf, rfl⟩, hnf⟩
  have hne : missingList t d ≠ [] := List.ne_nil_of_mem hmem
  simp only [generateBadges]
  rw [if_neg hne]

/-- C3, witness: a template requiring `NAME` against a table having only
`ROLE` fails with the `missingRequired` error. -/
theorem generateBadges_missing_required_error_witness :
    generateBadges pxtag ⟨strOf "PXTAG_NAME1", [strOf "NAME"], 1⟩
      ⟨[strOf "ROLE"], [[(strOf "ROLE", strOf "x")]]⟩
      = .error (.missingRequired (missingList ⟨strOf "PXTAG_NAME1", [strOf "NAME"], 1⟩
          ⟨[strOf "ROLE"], [[(strOf "ROLE", strOf "x")]]⟩)) :=
  generateBadges_missing_required_error pxtag ⟨strOf "PXTAG_NAME1", [strOf "NAME"], 1⟩
    ⟨[strOf "ROLE"], [[(strOf "ROLE", strOf "x")]]⟩ (by decide)

/-- C4.  On every successful run with capacity `N ≥ 1` and `R ≥ 1` records,
the number of generated pages is `(R + N - 1) / N`, which is the ceiling of
`R / N`: the pages cover all `R` records and one page fewer would not. -/
theorem generateBadges_page_count (pre : Str) (t : Template) (d : AttendeeData)
    (pages : List Str) (hN : 1 ≤ t.records_per_page) (hR : 1 ≤ d.records.length)
    (h : generateBadges pre t d = .ok pages) :
    pages.length = (d.records.length + t.records_per_page - 1) / t.records_per_page ∧
    d.records.length ≤ pages.length * t.records_per_page ∧
    (pages.length - 1) * t.records_per_page < d.records.length := by
  have hlen : pages.length =
      (d.records.length + t.records_per_page - 1) / t.records_per_page := by
    simp only [generateBadges] at h
    split at h
    · rw [← Except.ok.inj h]
      simp
    · exact Except.noConfusion h
  have hdm := Nat.div_add_mod (d.records.length + t.records_per_page - 1)
    t.records_per_page
  have hmod : (d.records.length + t.records_per_page - 1) % t.records_per_page
      < t.records_per_page := Nat.mod_lt _ (by omega)
  have hsub : ((d.records.length + t.records_per_page - 1) / t.records_per_page - 1)
        * t.records_per_page
      = (d.records.length + t.records_per_page - 1) / t.records_per_page
          * t.records_per_page - t.records_per_page := by
    rw [Nat.sub_mul, Nat.one_mul]
  have hc : (d.records.length + t.records_per_page - 1) / t.records_per_page
        * t.records_per_page
      = t.records_per_page
          * ((d.records.length + t.records_per_page - 1) / t.records_per_page) :=
    Nat.mul_comm _ _
  refine ⟨hlen, ?_, ?_⟩ <;> rw [hlen] <;> omega

/-- C4, witness: three records at capacity two make two pages. -/
theorem generateBadges_page_count_witness :
    [composePage pxtag ⟨strOf "PXTAG_NAME1 PXTAG_NAME2", [strOf "NAME"], 2⟩
        ⟨[strOf "NAME"], [[(strOf "NAME", strOf "A")], [(strOf "NAME", strOf "B")],
          [(strOf "NAME", strOf "C")]]⟩ 0,
      composePage pxtag ⟨strOf "PXTAG_NAME1 PXTAG_NAME2", [strOf "NAME"], 2⟩
        ⟨[strOf "NAME"], [[(strOf "NAME", strOf "A")], [(strOf "NAME", strOf "B")],
          [(strOf "NAME", strOf "C")]]⟩ 1].length = (3 + 2 - 1) / 2 ∧
    3 ≤ 2 * 2 ∧ (2 - 1) * 2 < 3 := by
  have h := generateBadges_page_count pxtag
    ⟨strOf "PXTAG_NAME1 PXTAG_NAME2", [strOf "NAME"], 2⟩
    ⟨[strOf "NAME"], [[(strOf "NAME", strOf "A")], [(strOf "NAME", strOf "B")],
      [(strOf "NAME", strOf "C")]]⟩ _ (by decide) (by decide) rfl
  exact h

/-- C7, amended.  `read_attendees` drops blank header cells from the header
(stripping the retained ones), but it does not drop the corresponding column
positions from the data rows: each data row is truncated to its first
`k` cells (`k` = number of retained headers), stripped, padded with empty
strings, and matched positionally against the retained header list.  Hence,
for duplicate-free retained headers, the record value of the `i`-th retained
header is the stripped `i`-th cell of the raw row counted from the row's
left edge — when a blank header cell precedes a non-blank one, the values of
the following columns shift. -/
theorem readAttendees_left_aligned (rows : List (List Str)) (d : AttendeeData)
    (h : readAttendees rows = .ok d) (hnd : d.headers.Nodup) :
    d.records.length = ((rows.drop 1).filter (fun r => !isBlankRow r)).length ∧
    ∀ j i, j < d.records.length → i < d.headers.length →
      dictGet (d.records.getD j []) (d.headers.getD i []) =
        pyStrip ((((rows.drop 1).filter (fun r => !isBlankRow r)).getD j []).getD i []) := by
  cases rows with
  | nil => exact Except.noConfusion h
  | cons headerRow dataRows =>
    simp only [readAttendees] at h
    split at h
    · exact Except.noConfusion h
    · have hd := Except.ok.inj h
      subst hd
      refine ⟨by simp, ?_⟩
      intro j i hj hi
      have hj2 : j < (dataRows.filter (fun r => !isBlankRow r)).length := by
        simpa using hj
      have hi2 : i < ((headerRow.map pyStrip).filter (fun g => !decide (g = []))).length := by
        simpa using hi
      simp only [List.drop_succ_cons]
      rw [getD_map_lt _ _ j hj2 _ []]
      rw [dictGet_zip (by simpa using hnd) i hi2 (by rw [cleanRow_length]; exact hi2)]
      exact cleanRow_getD _ _ i hi2

/-- C7, witness for the amended theorem: on the counterexample input the
value of header `ROLE` (index 1) is the stripped cell at raw-row index 1,
namely `x`. -/
theorem readAttendees_left_aligned_witness :
    dictGet [(strOf "NAME", strOf "Alice"), (strOf "ROLE", strOf "x")] (strOf "ROLE")
      = strOf "x" :=
  (readAttendees_left_aligned
    [[strOf "NAME", strOf "", strOf "ROLE"], [strOf "Alice", strOf "x", strOf "Speaker"]]
    ⟨[strOf "NAME", strOf "ROLE"],
      [[(strOf "NAME", strOf "Alice"), (strOf "ROLE", strOf "x")]]⟩
    (by rfl) (by decide)).2 0 1 (by decide) (by decide)

/-- C5.  On every template text it accepts, `read_template` returns as
capacity the maximum numeric suffix over all placeholder matches of the
whole template (the bound is attained by some match and no match exceeds
it), and as field set exactly the distinct uppercase names of all matches
(without duplicates). -/
theorem readTemplate_capacity_and_fields (xmlOk : Str → Bool) (pre content : Str)
    (t : Template) (h : readTemplate xmlOk pre content = .ok t) :
    t.content = content ∧
    findTags pre content ≠ [] ∧
    (∀ m ∈ findTags pre content, digitsToNat m.2 ≤ t.records_per_page) ∧
    (∃ m ∈ findTags pre content, digitsToNat m.2 = t.records_per_page) ∧
    t.tags.Nodup ∧
    (∀ f, f ∈ t.tags ↔ ∃ m ∈ findTags pre content, m.1 = f) := by
  simp only [readTemplate] at h
  split at h
  case isFalse => exact Except.noConfusion h
  case isTrue hxml =>
    split at h
    case isTrue => exact Except.noConfusion h
    case isFalse hne =>
      split at h
      case h_1 => exact Except.noConfusion h
      case h_2 hfind =>
        have ht := Except.ok.inj h
        subst ht
        refine ⟨rfl, hne, ?_, ?_, List.nodup_dedup _, ?_⟩
        · intro m hm
          exact le_listMax (List.mem_map_of_mem _ hm)
        · have hmem := listMax_mem
            (l := (findTags pre content).map (fun m => digitsToNat m.2))
            (by simpa using hne)
          obtain ⟨m, hm, hval⟩ := List.mem_map.mp hmem
          exact ⟨m, hm, hval⟩
        · intro f
          simp [List.mem_dedup, List.mem_map]

/-- C5, witness on the template `PXTAG_NAME1 PXTAG_AFF2`: the scan is
nonempty and the analysed tag set is duplicate-free. -/
theorem readTemplate_capacity_and_fields_witness :
    findTags pxtag (strOf "PXTAG_NAME1 PXTAG_AFF2") ≠ [] ∧
    ([strOf "NAME", strOf "AFF"] : List Str).Nodup :=
  ⟨(readTemplate_capacity_and_fields (fun _ => true) pxtag
      (strOf "PXTAG_NAME1 PXTAG_AFF2")
      ⟨strOf "PXTAG_NAME1 PXTAG_AFF2", [strOf "NAME", strOf "AFF"], 2⟩ (by rfl)).2.1,
    (readTemplate_capacity_and_fields (fun _ => true) pxtag
      (strOf "PXTAG_NAME1 PXTAG_AFF2")
      ⟨strOf "PXTAG_NAME1 PXTAG_AFF2", [strOf "NAME", strOf "AFF"], 2⟩ (by rfl)).2.2.2.2.1⟩

/-- C6.  `read_template` fails exactly when the markup check fails, or no
placeholder matches in the text, or some field uses a numeric suffix outside
`{1, ..., capacity}` (capacity being the template-wide maximum suffix); and
whenever the range error is raised it names an offending field together
with the capacity it violates. -/
theorem readTemplate_error_iff (xmlOk : Str → Bool) (pre content : Str) :
    ((∃ e, readTemplate xmlOk pre content = .error e) ↔
      (xmlOk content = false ∨ findTags pre content = [] ∨
        ∃ f ∈ (findTags pre content).map Prod.fst,
          ∃ n ∈ tagNumbers (findTags pre content) f,
            ¬(1 ≤ n ∧ n ≤ listMax ((findTags pre content).map
              (fun m => digitsToNat m.2))))) ∧
    (∀ f maxN, readTemplate xmlOk pre content = .error (.tagMissingNumbers f maxN) →
      f ∈ (findTags pre content).map Prod.fst ∧
      maxN = listMax ((findTags pre content).map (fun m => digitsToNat m.2)) ∧
      ∃ n ∈ tagNumbers (findTags pre content) f, ¬(1 ≤ n ∧ n ≤ maxN)) := by
  constructor
  · constructor
    · rintro ⟨e, he⟩
      simp only [readTemplate] at he
      split at he
      case isFalse hx => exact Or.inl (by simpa using hx)
      case isTrue hx =>
        split at he
        case isTrue hms => exact Or.inr (Or.inl hms)
        case isFalse hms =>
          split at he
          case h_2 => exact Except.noConfusion he
          case h_1 tf hfind =>
            right; right
            have hp := List.find?_some hfind
            have hmem := List.mem_of_find?_eq_some hfind
            rw [List.any_eq_true] at hp
            obtain ⟨n, hn, hcond⟩ := hp
            exact ⟨tf, List.mem_dedup.mp hmem, n, hn, by simp at hcond; omega⟩
    · intro hor
      rcases hor with hx | hms | ⟨f, hf, n, hn, hcond⟩
      · exact ⟨.invalidSVG, by simp only [readTemplate]; rw [if_neg (by simp [hx])]⟩
      · by_cases hx : xmlOk content
        · exact ⟨.noTagsFound pre,
            by simp only [readTemplate]; rw [if_pos hx, if_pos hms]⟩
        · exact ⟨.invalidSVG, by simp only [readTemplate]; rw [if_neg hx]⟩
      · by_cases hx : xmlOk content
        · by_cases hms : findTags pre content = []
          · exact ⟨.noTagsFound pre,
              by simp only [readTemplate]; rw [if_pos hx, if_pos hms]⟩
          · cases hfind : (((findTags pre content).map Prod.fst).dedup).find?
                (fun t => (tagNumbers (findTags pre content) t).any
                  (fun k => !decide (1 ≤ k ∧ k ≤ listMax ((findTags pre content).map
                    (fun m => digitsToNat m.2))))) with
            | none =>
              exfalso
              rw [List.find?_eq_none] at hfind
              refine hfind f (List.mem_dedup.mpr hf) ?_
              rw [List.any_eq_true]
              exact ⟨n, hn, by simp; omega⟩
            | some tf =>
              refine ⟨.tagMissingNumbers tf
                (listMax ((findTags pre content).map (fun m => digitsToNat m.2))), ?_⟩
              simp only [readTemplate]
              rw [if_pos hx, if_neg hms, hfind]
        · exact ⟨.invalidSVG, by simp only [readTemplate]; rw [if_neg hx]⟩
  · intro f maxN he
    simp only [readTemplate] at he
    split at he
    case isFalse => exact PyError.noConfusion (Except.error.inj he)
    case isTrue hx =>
      split at he
      case isTrue hms => exact PyError.noConfusion (Except.error.inj he)
      case isFalse hms =>
        split at he
        case h_2 => exact Except.noConfusion he
        case h_1 tf hfind =>
          have hinj := Except.error.inj he
          injection hinj with h1 h2
          subst h1
          subst h2
          have hp := List.find?_some hfind
          rw [List.any_eq_true] at hp
          obtain ⟨n, hn, hcond⟩ := hp
          exact ⟨List.mem_dedup.mp (List.mem_of_find?_eq_some hfind), rfl,
            n, hn, by simp at hcond; omega⟩

/-- C6, witness: the template `PXTAG_NAME0 PXTAG_NAME1` has capacity 1 and
field `NAME` uses the out-of-range suffix 0, so the raised error names
`NAME`, which indeed is a scanned field. -/
theorem readTemplate_error_iff_witness :
    strOf "NAME" ∈ (findTags pxtag (strOf "PXTAG_NAME0 PXTAG_NAME1")).map Prod.fst :=
  ((readTemplate_error_iff (fun _ => true) pxtag
    (strOf "PXTAG_NAME0 PXTAG_NAME1")).2 (strOf "NAME") 1 (by rfl)).1

/-- C8.  The record batch of a page always has length `N`; position `i`
(0-based) holds the real record `page * N + i` whenever that index exists,
and the empty record (every header mapped to the empty string) exactly on
the trailing positions past the record count; and on every page other than
the final one all `N` positions hold real records. -/
theorem pageRecords_padding (d : AttendeeData) (N p : Nat) (hN : 1 ≤ N) :
    (pageRecords d N p).length = N ∧
    (∀ i, i < N → p * N + i < d.records.length →
      (pageRecords d N p).getD i [] = d.records.getD (p * N + i) []) ∧
    (∀ i, i < N → d.records.length ≤ p * N + i →
      (pageRecords d N p).getD i [] = emptyRecord d.headers) ∧
    (p + 1 < (d.records.length + N - 1) / N → ∀ i, i < N → p * N + i < d.records.length) := by
  have hslice : ((d.records.drop (p * N)).take N).length
      = min N (d.records.length - p * N) := by
    simp [List.length_take, List.length_drop]
  refine ⟨?_, ?_, ?_, ?_⟩
  · simp only [pageRecords, List.length_append, List.length_replicate, hslice]
    omega
  · intro i hiN hir
    have hlt : i < ((d.records.drop (p * N)).take N).length := by rw [hslice]; omega
    simp only [pageRecords, List.getD_eq_getElem?_getD]
    rw [List.getElem?_append_left hlt, List.getElem?_take_of_lt hiN, List.getElem?_drop]
  · intro i hiN hir
    have hge : ((d.records.drop (p * N)).take N).length ≤ i := by rw [hslice]; omega
    simp only [pageRecords, List.getD_eq_getElem?_getD]
    rw [List.getElem?_append_right hge, List.getElem?_replicate,
      if_pos (by rw [hslice]; omega)]
    rfl
  · intro hp i hiN
    have h1 : (p + 2) * N ≤ d.records.length + N - 1 :=
      (Nat.le_div_iff_mul_le (by omega : 0 < N)).mp (by omega)
    have h2 : (p + 2) * N = p * N + 2 * N := by ring
    omega

/-- C8, witness: with three records at capacity two, position 1 of the final
page (page index 1) is the empty record. -/
theorem pageRecords_padding_witness :
    (pageRecords ⟨[strOf "NAME"], [[(strOf "NAME", strOf "A")], [(strOf "NAME", strOf "B")],
        [(strOf "NAME", strOf "C")]]⟩ 2 1).getD 1 [] = emptyRecord [strOf "NAME"] :=
  (pageRecords_padding ⟨[strOf "NAME"], [[(strOf "NAME", strOf "A")],
      [(strOf "NAME", strOf "B")], [(strOf "NAME", strOf "C")]]⟩ 2 1
    (by decide)).2.2.1 1 (by decide) (by decide)

/-- C9.  The generation pipeline is a mathematical function of the template
text and the table rows: two runs on equal inputs produce equal page text
lists (hence byte-identical page files and the same page count).  The only
run-to-run nondeterminism in the script, Python's set iteration order under
hash randomisation, reaches only log and error message composition, never
the emitted page text, which is modelled here. -/
theorem runGeneration_deterministic (xmlOk : Str → Bool) (pre : Str)
    (t1 t2 : Str) (r1 r2 : List (List Str)) (ht : t1 = t2) (hr : r1 = r2) :
    runGeneration xmlOk pre t1 r1 = runGeneration xmlOk pre t2 r2 := by
  rw [ht, hr]

/-- C9, witness at a concrete repeated run. -/
theorem runGeneration_deterministic_witness :
    runGeneration (fun _ => true) pxtag (strOf "PXTAG_NAME1")
      [[strOf "NAME"], [strOf "Alice"]]
      = runGeneration (fun _ => true) pxtag (strOf "PXTAG_NAME1")
        [[strOf "NAME"], [strOf "Alice"]] :=
  runGeneration_deterministic (fun _ => true) pxtag _ _ _ _ rfl rfl
